import Mathlib

/-!
Verification development for the nodepool reconciliation-and-reliability
engine. The definitions below are a shallow embedding of the Go source:

* `internal/reliability/retry.go` — retry executor, backoff calculator,
  retryability predicate, circuit breaker, and their composition;
* the dead-letter queue (`DeadLetterQueue` in the reliability package);
* `internal/controller/nodepool_controller.go` — the reconcile pass,
  desired-capacity computation, scale-up/scale-down loops and the
  deletion/finalizer workflow.

Modelling conventions: Go `error` values become `Option GoError` (with
`none` for `nil`); durations and timestamps become `Nat` (nanoseconds
resp. abstract instants); float64 backoff arithmetic is carried out
exactly in `ℚ`; the random nano-of-second draw used for jitter is an
explicit `Nat` parameter; Kubernetes API reads and writes performed by
the controller (`Get`, `Update`, `Status().Update`) are modelled as
succeeding, while every provider call is driven by an explicit
environment of responses so that calls can be counted.
-/

namespace Nodepool

/-- Model of a Go error value: its message text plus whether it is
(`errors.Is`-wise) `context.DeadlineExceeded` or `context.Canceled`. -/
structure GoError where
  msg : String
  isDeadlineExceeded : Bool := false
  isCanceled : Bool := false
  deriving DecidableEq, Repr

/-- The sentinel `ErrMaxRetriesExceeded` from retry.go. -/
def ErrMaxRetriesExceeded : GoError := { msg := "maximum retry attempts exceeded" }

/-- The sentinel `ErrCircuitOpen` from retry.go. -/
def ErrCircuitOpen : GoError := { msg := "circuit breaker is open" }

/-- Embedding of the `contains`/`findSubstring` pair from retry.go: substring
containment on the underlying character lists. -/
def goContains (s substr : String) : Bool :=
  decide (substr.toList <:+: s.toList)

/-- The transient-error patterns listed in `IsRetryableError`. -/
def retryablePatterns : List String :=
  ["connection refused", "connection reset", "timeout", "temporary failure",
   "rate limit", "too many requests", "429", "503", "502", "504"]

/-- Embedding of `IsRetryableError` from retry.go: context errors are not
retryable, otherwise the message is matched against the known transient
patterns. -/
def IsRetryableError (e : Option GoError) : Bool :=
  match e with
  | none => false
  | some err =>
    if err.isDeadlineExceeded || err.isCanceled then false
    else retryablePatterns.any (fun p => goContains err.msg p)

/-- Embedding of `RetryConfig` from retry.go. `retryableErrors = none`
models a nil predicate field. -/
structure RetryConfig where
  maxRetries : Nat
  initialBackoff : ℚ
  maxBackoff : ℚ
  backoffMultiplier : ℚ
  retryableErrors : Option (GoError → Bool)

/-- Embedding of `DefaultRetryConfig` from retry.go (durations in
nanoseconds). -/
def DefaultRetryConfig : RetryConfig :=
  { maxRetries := 5
    initialBackoff := 1000000000
    maxBackoff := 30000000000
    backoffMultiplier := 2
    retryableErrors := some (fun e => IsRetryableError (some e)) }

/-- The jitter term of `calculateBackoffWithJitter`: `0.25*backoff`
scaled by `0.5 + (nanoNonce % 1000)/2000`, carried out exactly in `ℚ`.
`nanoNonce` stands for the `time.Now().UnixNano()` draw. -/
def jitterAmount (backoff : ℚ) (nanoNonce : Nat) : ℚ :=
  (backoff * (1/4)) * (1/2 + ((nanoNonce % 1000 : Nat) : ℚ) / 2000)

/-- Embedding of `calculateBackoffWithJitter` from retry.go: add the
jitter to the current backoff and cap the total at `maxBackoff`. -/
def calculateBackoffWithJitter (backoff maxBackoff : ℚ) (nanoNonce : Nat) : ℚ :=
  let total := backoff + jitterAmount backoff nanoNonce
  if total > maxBackoff then maxBackoff else total

/-- Outcome of a `RetryOperation` run, mirroring the four return shapes of
the Go function: success, the non-retryable wrap, the max-retries-exceeded
wrap (carrying the reported attempt count and last error), and the
cancellation wrap. -/
inductive RetryResult where
  | ok : RetryResult
  | nonRetryable : GoError → RetryResult
  | exhausted : Nat → Option GoError → RetryResult
  | canceled : RetryResult
  deriving DecidableEq, Repr

/-- Trace of one `RetryOperation` run over an operation with state `σ`:
the result, the final operation state, how many times the loop body ran
(each run invokes the operation once at the retry level), and the list of
slept backoff durations. -/
structure RetryTrace (σ : Type) where
  result : RetryResult
  state : σ
  iterations : Nat
  sleeps : List ℚ
  deriving DecidableEq, Repr

/-- The guard `config.RetryableErrors != nil && !config.RetryableErrors(err)`
from the retry loop. -/
def notRetryable (cfg : RetryConfig) (err : GoError) : Bool :=
  match cfg.retryableErrors with
  | some p => !(p err)
  | none => false

/-- The body of the retry loop in `RetryOperation`, recursing on the fuel
`maxRetries + 1 - attempt`. `op` is the (stateful) operation, `ctxCanceled`
models whether the context cancellation fires at a sleep point, `jitterAt`
supplies the random nano draw used by the backoff calculator at each
attempt, and `lastErr` threads the `lastErr` variable of the source. -/
def retryGo (cfg : RetryConfig) {σ : Type} (op : σ → Option GoError × σ)
    (ctxCanceled : Bool) (jitterAt : Nat → Nat) :
    Nat → Nat → ℚ → Option GoError → σ → RetryTrace σ
  | 0, _, _, lastErr, s =>
    { result := .exhausted (cfg.maxRetries + 1) lastErr, state := s
      iterations := 0, sleeps := [] }
  | fuel + 1, attempt, backoff, _, s =>
    let r := op s
    match r.1 with
    | none => { result := .ok, state := r.2, iterations := 1, sleeps := [] }
    | some err =>
      if notRetryable cfg err then
        { result := .nonRetryable err, state := r.2, iterations := 1, sleeps := [] }
      else if attempt = cfg.maxRetries then
        { result := .exhausted (cfg.maxRetries + 1) (some err), state := r.2
          iterations := 1, sleeps := [] }
      else if ctxCanceled then
        { result := .canceled, state := r.2, iterations := 1, sleeps := [] }
      else
        let sleepDuration := calculateBackoffWithJitter backoff cfg.maxBackoff (jitterAt attempt)
        let grown := backoff * cfg.backoffMultiplier
        let backoff1 := if grown > cfg.maxBackoff then cfg.maxBackoff else grown
        let t := retryGo cfg op ctxCanceled jitterAt fuel (attempt + 1) backoff1 (some err) r.2
        { result := t.result, state := t.state, iterations := t.iterations + 1
          sleeps := sleepDuration :: t.sleeps }

/-- Embedding of `RetryOperation` from retry.go: run the loop starting at
attempt 0 with the initial backoff; the loop can run `maxRetries + 1`
times. -/
def RetryOperation (cfg : RetryConfig) {σ : Type} (op : σ → Option GoError × σ)
    (ctxCanceled : Bool) (jitterAt : Nat → Nat) (s : σ) : RetryTrace σ :=
  retryGo cfg op ctxCanceled jitterAt (cfg.maxRetries + 1) 0 cfg.initialBackoff none s

/-- The three circuit breaker states of retry.go. -/
inductive CircuitBreakerState where
  | closed : CircuitBreakerState
  | open : CircuitBreakerState
  | halfOpen : CircuitBreakerState
  deriving DecidableEq, Repr

/-- Embedding of the `CircuitBreaker` struct from retry.go. Timestamps are
abstract `Nat` instants; the Go zero `time.Time` of a fresh breaker is 0. -/
structure CircuitBreaker where
  maxFailures : Nat
  resetTimeout : Nat
  failureCount : Nat
  lastFailureTime : Nat
  state : CircuitBreakerState
  deriving DecidableEq, Repr

/-- Embedding of `NewCircuitBreaker`: closed, with zeroed counter and
zero last-failure time. -/
def NewCircuitBreaker (maxFailures resetTimeout : Nat) : CircuitBreaker :=
  { maxFailures := maxFailures, resetTimeout := resetTimeout
    failureCount := 0, lastFailureTime := 0, state := .closed }

/-- Embedding of `CircuitBreaker.onFailure`: bump the counter, record the
failure time, and open the circuit from half-open or once the counter
reaches the threshold. -/
def CircuitBreaker.onFailure (cb : CircuitBreaker) (now : Nat) : CircuitBreaker :=
  let cb1 := { cb with failureCount := cb.failureCount + 1, lastFailureTime := now }
  if cb.state = .halfOpen then { cb1 with state := .open }
  else if cb1.failureCount ≥ cb.maxFailures then { cb1 with state := .open }
  else cb1

/-- Embedding of `CircuitBreaker.onSuccess`: close from half-open and
reset the counter; reset the counter while closed; (the open case does
not occur in the Go switch and leaves the breaker unchanged). -/
def CircuitBreaker.onSuccess (cb : CircuitBreaker) : CircuitBreaker :=
  match cb.state with
  | .halfOpen => { cb with state := .closed, failureCount := 0 }
  | .closed => { cb with failureCount := 0 }
  | .open => cb

/-- The entry check of `CircuitBreaker.Execute`: from the open state the
call is rejected (`none`) unless more than `resetTimeout` has elapsed
since the last failure, in which case the breaker moves to half-open with
the counter reset; closed and half-open states pass through. -/
def CircuitBreaker.gate (cb : CircuitBreaker) (now : Nat) : Option CircuitBreaker :=
  match cb.state with
  | .open =>
    if now - cb.lastFailureTime > cb.resetTimeout then
      some { cb with state := .halfOpen, failureCount := 0 }
    else none
  | _ => some cb

/-- Result of one `CircuitBreaker.Execute` call: the returned error, the
breaker afterwards, and whether the wrapped operation was invoked. -/
structure ExecResult where
  err : Option GoError
  cb : CircuitBreaker
  invoked : Bool
  deriving DecidableEq, Repr

/-- Embedding of `CircuitBreaker.Execute` from retry.go. `opResult` is the
error the wrapped operation would return if invoked. -/
def CircuitBreaker.Execute (cb : CircuitBreaker) (now : Nat)
    (opResult : Option GoError) : ExecResult :=
  match cb.gate now with
  | none => { err := some ErrCircuitOpen, cb := cb, invoked := false }
  | some cb1 =>
    match opResult with
    | some err => { err := some err, cb := cb1.onFailure now, invoked := true }
    | none => { err := none, cb := cb1.onSuccess, invoked := true }

/-- Run a sequence of failing `Execute` calls (the wrapped operation fails
with `e` at each listed instant). -/
def runFailures (e : GoError) : CircuitBreaker → List Nat → CircuitBreaker
  | cb, [] => cb
  | cb, t :: ts => runFailures e (cb.Execute t (some e)).cb ts

/-- Operation state used to compose the retry executor with the circuit
breaker in `RetryWithCircuitBreaker`: the index of the current retry
iteration (used to look up the wall-clock instant), the breaker, and a
count of invocations of the underlying operation. -/
structure BreakerLoopState where
  iter : Nat
  cb : CircuitBreaker
  innerCalls : Nat
  deriving DecidableEq, Repr

/-- One retry-level operation of `RetryWithCircuitBreaker`: re-enter the
breaker with the current instant; the underlying operation (whose result
at its k-th invocation is `innerResults k`) runs only if the breaker
lets the call through. -/
def breakerOp (timeAt : Nat → Nat) (innerResults : Nat → Option GoError)
    (s : BreakerLoopState) : Option GoError × BreakerLoopState :=
  let r := s.cb.Execute (timeAt s.iter) (innerResults s.innerCalls)
  (r.err, { iter := s.iter + 1, cb := r.cb
            innerCalls := s.innerCalls + (if r.invoked then 1 else 0) })

/-- Embedding of `RetryWithCircuitBreaker` from retry.go: the retry
executor wraps `cb.Execute(operation)`, so every attempt re-enters the
breaker. -/
def RetryWithCircuitBreaker (cfg : RetryConfig) (cb : CircuitBreaker)
    (timeAt : Nat → Nat) (innerResults : Nat → Option GoError)
    (ctxCanceled : Bool) (jitterAt : Nat → Nat) : RetryTrace BreakerLoopState :=
  RetryOperation cfg (breakerOp timeAt innerResults) ctxCanceled jitterAt
    { iter := 0, cb := cb, innerCalls := 0 }

/-- Embedding of the `FailedOperation` record of the dead-letter queue.
The untyped payload is modelled as a string. -/
structure FailedOperation where
  id : String
  operationType : String
  payload : String
  error : GoError
  timestamp : Nat
  retryCount : Nat
  metadata : List (String × String)
  deriving DecidableEq, Repr

/-- The sentinel `ErrQueueFull` of the dead-letter queue. -/
def ErrQueueFull : GoError := { msg := "dead letter queue is full" }

/-- Lookup in the identifier-keyed operations map, modelled as an
association list. -/
def mapLookup (l : List (String × FailedOperation)) (k : String) :
    Option FailedOperation :=
  (l.find? (fun p => p.1 = k)).map (fun p => p.2)

/-- Whether the operations map already holds the identifier. -/
def mapHasKey (l : List (String × FailedOperation)) (k : String) : Bool :=
  l.any (fun p => p.1 = k)

/-- Go map insertion `m[k] = v`: replace the entry when the key is
present, append it otherwise. -/
def mapInsert (l : List (String × FailedOperation)) (k : String)
    (v : FailedOperation) : List (String × FailedOperation) :=
  if mapHasKey l k then l.map (fun p => if p.1 = k then (k, v) else p)
  else l ++ [(k, v)]

/-- Embedding of the `DeadLetterQueue` struct: the identifier-keyed map of
failed operations, the fixed capacity, and the registered listeners
(identified by plain names). -/
structure DeadLetterQueue where
  operations : List (String × FailedOperation)
  maxSize : Nat
  listeners : List String
  deriving DecidableEq, Repr

/-- Embedding of `NewDeadLetterQueue`. -/
def NewDeadLetterQueue (maxSize : Nat) : DeadLetterQueue :=
  { operations := [], maxSize := maxSize, listeners := [] }

/-- Embedding of `DeadLetterQueue.Add`: reject with `ErrQueueFull` when the
map already holds `maxSize` entries; otherwise stamp the timestamp, store
the entry under its identifier, and notify every registered listener with
the stored entry. The third component records the notifications sent. -/
def DeadLetterQueue.add (dlq : DeadLetterQueue) (op : FailedOperation)
    (now : Nat) : Option GoError × DeadLetterQueue × List (String × FailedOperation) :=
  if dlq.operations.length ≥ dlq.maxSize then (some ErrQueueFull, dlq, [])
  else
    let op1 := { op with timestamp := now }
    (none, { dlq with operations := mapInsert dlq.operations op.id op1 },
     dlq.listeners.map (fun name => (name, op1)))

/-- Embedding of `DeadLetterQueue.Size`. -/
def DeadLetterQueue.size (dlq : DeadLetterQueue) : Nat :=
  dlq.operations.length

/-- A provider-observed instance (`hetzner.Server`). -/
structure Server where
  id : Int
  name : String
  status : String
  deriving DecidableEq, Repr

/-- The NodePool spec fields read by the reconcile pass
(`minNodes`, `maxNodes`, `targetNodes`, autoscaling flag and threshold);
integers are Go `int`, modelled as `Int`. -/
structure NodePoolSpec where
  minNodes : Int
  maxNodes : Int
  targetNodes : Int
  autoScalingEnabled : Bool
  scaleUpThreshold : Int
  deriving DecidableEq, Repr

/-- A timestamped condition record appended by `updateStatus`. -/
structure Condition where
  ctype : String
  statusTrue : Bool
  reason : String
  message : String
  deriving DecidableEq, Repr

/-- The engine-owned NodePool status. `lastScaleTimeSet` abstracts the
wall-clock `LastScaleTime` pointer (set or not). -/
structure NodePoolStatus where
  currentNodes : Int := 0
  readyNodes : Int := 0
  nodes : List String := []
  lastScaleTimeSet : Bool := false
  phase : String := ""
  conditions : List Condition := []
  deriving DecidableEq, Repr

/-- The NodePool descriptor as seen by one reconcile pass.
`deletionTimestampSet` is the tombstone marker. -/
structure NodePool where
  name : String
  deletionTimestampSet : Bool
  finalizers : List String
  spec : NodePoolSpec
  status : NodePoolStatus
  deriving DecidableEq, Repr

/-- The finalization marker constant of the controller. -/
def nodePoolFinalizer : String := "hcloud.autokube.io/finalizer"

/-- Embedding of the `containsString` helper. -/
def containsString (slice : List String) (s : String) : Bool :=
  slice.any (fun item => item = s)

/-- Embedding of the `removeString` helper: drop every occurrence,
keeping order. -/
def removeString (slice : List String) (s : String) : List String :=
  slice.filter (fun item => item ≠ s)

/-- Environment of one reconcile pass: the provider list response, the
per-call create and delete responses (`none` is success, indexed by call
order within the pass), and the pending-pod count observed by the
autoscaler (`none` models a failed pod list). Kubernetes object reads and
writes are modelled as succeeding. -/
structure ReconcileEnv where
  listServers : Except GoError (List Server)
  createResults : Nat → Option GoError
  deleteResults : Nat → Option GoError
  podList : Option Nat

/-- Outcome of one reconcile pass: the NodePool afterwards, the number of
provider create and delete calls issued, and the error returned to the
caller. -/
structure ReconcileOutcome where
  pool : NodePool
  createCalls : Nat
  deleteCalls : Nat
  err : Option GoError

/-- Embedding of `countReadyNodes`: instances whose status is
"running". -/
def countReadyNodes (servers : List Server) : Nat :=
  (servers.filter (fun s => s.status = "running")).length

/-- Embedding of `getServerNames`. -/
def getServerNames (servers : List Server) : List String :=
  servers.map (fun s => s.name)

/-- Embedding of `updateStatus`: set the phase and append a "Ready=False"
condition carrying the phase as reason and the error message. -/
def updateStatus (pool : NodePool) (phase message : String) : NodePool :=
  { pool with status :=
      { pool.status with
          phase := phase
          conditions := pool.status.conditions ++
            [{ ctype := "Ready", statusTrue := false, reason := phase, message := message }] } }

/-- Embedding of `calculateDesiredNodes`: on a failed pod list return the
current count; scale up by one when the pending-pod count reaches the
threshold, down by one when above `minNodes` with no pending pods, else
hold steady. The current count is `Status.CurrentNodes`, which the pass
has just set to the observed instance count. -/
def calculateDesiredNodes (spec : NodePoolSpec) (currentNodes : Int)
    (podList : Option Nat) : Int :=
  match podList with
  | none => currentNodes
  | some pendingPods =>
    if (pendingPods : Int) ≥ spec.scaleUpThreshold then currentNodes + 1
    else if currentNodes > spec.minNodes ∧ pendingPods = 0 then currentNodes - 1
    else currentNodes

/-- The desired-capacity computation of the reconcile pass (lines
113–130 of the controller): default to `minNodes`, override with a
positive `targetNodes`, else with the autoscaler, then clamp to
`[minNodes, maxNodes]`. -/
def desiredNodes (spec : NodePoolSpec) (currentNodes : Int)
    (podList : Option Nat) : Int :=
  let d0 := spec.minNodes
  let d1 :=
    if spec.targetNodes > 0 then spec.targetNodes
    else if spec.autoScalingEnabled then calculateDesiredNodes spec currentNodes podList
    else d0
  let d2 := if d1 < spec.minNodes then spec.minNodes else d1
  if d2 > spec.maxNodes then spec.maxNodes else d2

/-- Run up to `count` sequential provider calls starting at call index
`start`, stopping at the first failure; returns the number of calls
issued and the first error. Used by the scale-up loop and the deletion
workflow. -/
def runCallsFrom (results : Nat → Option GoError) (start : Nat) :
    Nat → Nat × Option GoError
  | 0 => (0, none)
  | count + 1 =>
    match results start with
    | some e => (1, some e)
    | none =>
      let r := runCallsFrom results (start + 1) count
      (r.1 + 1, r.2)

/-- Run `count` sequential provider calls from index 0 (first failure
aborts). -/
def runCalls (results : Nat → Option GoError) (count : Nat) : Nat × Option GoError :=
  runCallsFrom results 0 count

/-- The scale-down loop (lines 155–163): iterate `i` over the removal
count, issuing a provider delete for `servers[i]` only under the bounds
guard `i < len(servers)`; the first delete failure aborts the pass.
Node drain and cluster node removal are best-effort and do not affect
the outcome. -/
def scaleDownFrom (results : Nat → Option GoError) (len : Nat) (start : Nat) :
    Nat → Nat × Option GoError
  | 0 => (0, none)
  | count + 1 =>
    if start < len then
      match results start with
      | some e => (1, some e)
      | none =>
        let r := scaleDownFrom results len (start + 1) count
        (r.1 + 1, r.2)
    else scaleDownFrom results len (start + 1) count

/-- Embedding of `handleDeletion`: with the finalizer present, list the
instances and delete each in order; a listing or delete failure is
returned with the finalizer retained; once every delete has succeeded the
finalizer is removed. Without the finalizer the pass does nothing. -/
def handleDeletion (pool : NodePool) (env : ReconcileEnv) : ReconcileOutcome :=
  if containsString pool.finalizers nodePoolFinalizer then
    match env.listServers with
    | .error e => { pool := pool, createCalls := 0, deleteCalls := 0, err := some e }
    | .ok servers =>
      let r := runCalls env.deleteResults servers.length
      match r.2 with
      | some e => { pool := pool, createCalls := 0, deleteCalls := r.1, err := some e }
      | none =>
        { pool := { pool with finalizers := removeString pool.finalizers nodePoolFinalizer }
          createCalls := 0, deleteCalls := r.1, err := none }
  else { pool := pool, createCalls := 0, deleteCalls := 0, err := none }

/-- Embedding of `NodePoolReconciler.Reconcile` (after a successful
fetch): tombstone check, finalizer ensure, provider observe, status
update, desired-capacity decision, the scale-up and scale-down loops, and
the final "Ready" publish. -/
def reconcile (pool0 : NodePool) (env : ReconcileEnv) : ReconcileOutcome :=
  if pool0.deletionTimestampSet then handleDeletion pool0 env
  else
    let pool1 :=
      if containsString pool0.finalizers nodePoolFinalizer then pool0
      else { pool0 with finalizers := pool0.finalizers ++ [nodePoolFinalizer] }
    match env.listServers with
    | .error e =>
      { pool := updateStatus pool1 "Error" e.msg
        createCalls := 0, deleteCalls := 0, err := some e }
    | .ok servers =>
      let pool2 := { pool1 with status :=
        { pool1.status with
            currentNodes := (servers.length : Int)
            readyNodes := (countReadyNodes servers : Int)
            nodes := getServerNames servers } }
      let desired := desiredNodes pool2.spec (servers.length : Int) env.podList
      if (servers.length : Int) < desired then
        let nodesToAdd := (desired - (servers.length : Int)).toNat
        let up := runCalls env.createResults nodesToAdd
        match up.2 with
        | some e =>
          { pool := updateStatus pool2 "ScaleUpFailed" e.msg
            createCalls := up.1, deleteCalls := 0, err := some e }
        | none =>
          let pool3 := { pool2 with status := { pool2.status with lastScaleTimeSet := true } }
          { pool := { pool3 with status := { pool3.status with phase := "Ready" } }
            createCalls := up.1, deleteCalls := 0, err := none }
      else if (servers.length : Int) > desired then
        let nodesToRemove := ((servers.length : Int) - desired).toNat
        let down := scaleDownFrom env.deleteResults servers.length 0 nodesToRemove
        match down.2 with
        | some e =>
          { pool := updateStatus pool2 "ScaleDownFailed" e.msg
            createCalls := 0, deleteCalls := down.1, err := some e }
        | none =>
          let pool3 := { pool2 with status := { pool2.status with lastScaleTimeSet := true } }
          { pool := { pool3 with status := { pool3.status with phase := "Ready" } }
            createCalls := 0, deleteCalls := down.1, err := none }
      else
        { pool := { pool2 with status := { pool2.status with phase := "Ready" } }
          createCalls := 0, deleteCalls := 0, err := none }

/-- A concrete failed-operation record for witnesses. -/
def sampleOp (i m : String) (rc : Nat) : FailedOperation :=
  { id := i, operationType := "create", payload := "", error := { msg := m },
    timestamp := 0, retryCount := rc, metadata := [] }

/-- A concrete queue holding one entry with capacity 3 and one
listener. -/
def sampleQueue : DeadLetterQueue :=
  { operations := [("a", sampleOp "a" "x" 0)], maxSize := 3, listeners := ["logger"] }

/-- A concrete queue holding one entry with capacity 2. -/
def sampleQueue2 : DeadLetterQueue :=
  { operations := [("a", sampleOp "a" "x" 0)], maxSize := 2, listeners := [] }

/-- A pure operation whose i-th invocation returns `f i`, with the state
counting invocations. -/
def countingOp (f : Nat → Option GoError) : Nat → Option GoError × Nat :=
  fun s => (f s, s + 1)

/-- A retry configuration with budget 3 and a retryable-everything
predicate, used by the C4 witness. -/
def retryAllCfg : RetryConfig :=
  { maxRetries := 3, initialBackoff := 1, maxBackoff := 30
    backoffMultiplier := 2, retryableErrors := some (fun _ => true) }

/-- The operation of the C4 witness: fails twice, then succeeds. -/
def failTwiceOp : Nat → Option GoError :=
  fun i => if i < 2 then some { msg := "boom" } else none

/-- Three running instances, as observed by a pass. -/
def threeServers : List Server :=
  [{ id := 1, name := "a", status := "running" },
   { id := 2, name := "b", status := "running" },
   { id := 3, name := "c", status := "running" }]

/-- A pool with `minNodes = 1, maxNodes = 5, targetNodes = 3` and no
tombstone. -/
def steadyPool : NodePool :=
  { name := "test-pool", deletionTimestampSet := false
    finalizers := [nodePoolFinalizer]
    spec := { minNodes := 1, maxNodes := 5, targetNodes := 3
              autoScalingEnabled := false, scaleUpThreshold := 5 }
    status := {} }

/-- An environment observing the three instances with all provider calls
succeeding. -/
def steadyEnv : ReconcileEnv :=
  { listServers := .ok threeServers, createResults := fun _ => none
    deleteResults := fun _ => none, podList := some 0 }

/-- The pool of the dead-letter scenario: `targetNodes = 1`, no
instances yet. -/
def dlScenarioPool : NodePool :=
  { name := "test-pool", deletionTimestampSet := false
    finalizers := [nodePoolFinalizer]
    spec := { minNodes := 1, maxNodes := 3, targetNodes := 1
              autoScalingEnabled := false, scaleUpThreshold := 5 }
    status := {} }

/-- The environment of the dead-letter scenario: empty listing and every
create failing. -/
def dlScenarioEnv : ReconcileEnv :=
  { listServers := .ok [], createResults := fun _ => some { msg := "simulated error" }
    deleteResults := fun _ => none, podList := some 0 }

/-- A tombstoned pool with the finalization marker present. -/
def deletingPool : NodePool :=
  { name := "test-pool", deletionTimestampSet := true
    finalizers := [nodePoolFinalizer]
    spec := { minNodes := 1, maxNodes := 3, targetNodes := 0
              autoScalingEnabled := false, scaleUpThreshold := 5 }
    status := {} }

/-- An environment observing two instances with all deletes succeeding. -/
def deletingEnv : ReconcileEnv :=
  { listServers := .ok [{ id := 1, name := "a", status := "running" },
                        { id := 2, name := "b", status := "running" }]
    createResults := fun _ => none, deleteResults := fun _ => none
    podList := some 0 }

section BackoffTheorems

/-- The nano draw contributes a factor in `[1/2, 1)` of the quarter
backoff. -/
lemma jitterAmount_bounds (b : ℚ) (j : Nat) (hb : 0 ≤ b) :
    0 ≤ jitterAmount b j ∧ b * (1/8) ≤ jitterAmount b j ∧ jitterAmount b j ≤ b * (1/4) := by
  have hm0 : (0 : ℚ) ≤ ((j % 1000 : Nat) : ℚ) := by positivity
  have hm1 : ((j % 1000 : Nat) : ℚ) ≤ 999 := by
    have : j % 1000 < 1000 := Nat.mod_lt _ (by norm_num)
    exact_mod_cast Nat.le_of_lt_succ (by omega)
  unfold jitterAmount
  refine ⟨by positivity, ?_, ?_⟩
  · nlinarith
  · nlinarith

/-- C7: for every current backoff `b ≥ 0`, jitter ceiling `max` and nano
draw, the jittered backoff lies in `[b, max]` when `b ≤ max` and equals
`max` when `b > max`; the added jitter is non-negative, between 12.5% and
25% of `b`. -/
theorem calculateBackoffWithJitter_bounds (b maxB : ℚ) (j : Nat) (hb : 0 ≤ b) :
    (b ≤ maxB → b ≤ calculateBackoffWithJitter b maxB j ∧
      calculateBackoffWithJitter b maxB j ≤ maxB) ∧
    (maxB < b → calculateBackoffWithJitter b maxB j = maxB) ∧
    (0 ≤ jitterAmount b j ∧ b * (1/8) ≤ jitterAmount b j ∧
      jitterAmount b j ≤ b * (1/4)) := by
  obtain ⟨hj0, hj1, hj2⟩ := jitterAmount_bounds b j hb
  unfold calculateBackoffWithJitter
  refine ⟨?_, ?_, hj0, hj1, hj2⟩
  · intro hble
    by_cases hgt : b + jitterAmount b j > maxB
    · simp only [hgt, if_pos]
      exact ⟨hble, le_refl _⟩
    · simp only [hgt, if_neg, not_false_iff]
      constructor
      · linarith
      · linarith [not_lt.mp hgt]
  · intro hlt
    have : b + jitterAmount b j > maxB := by linarith
    simp [this]

/-- Witness for C7 at `b = 2`, `max = 10`, draw 0. -/
theorem calculateBackoffWithJitter_bounds_witness :
    (0 : ℚ) ≤ 2 ∧
    ((2 : ℚ) ≤ calculateBackoffWithJitter 2 10 0 ∧ calculateBackoffWithJitter 2 10 0 ≤ 10) :=
  ⟨by norm_num, (calculateBackoffWithJitter_bounds 2 10 0 (by norm_num)).1 (by norm_num)⟩

end BackoffTheorems

section BreakerTheorems

/-- A failing call through a closed breaker bumps the counter, records the
time, and opens the circuit exactly when the counter reaches the
threshold. -/
lemma execute_closed_failure (cb : CircuitBreaker) (t : Nat) (e : GoError)
    (h : cb.state = .closed) :
    (cb.Execute t (some e)).cb =
      if cb.maxFailures ≤ cb.failureCount + 1 then
        { cb with failureCount := cb.failureCount + 1, lastFailureTime := t, state := .open }
      else { cb with failureCount := cb.failureCount + 1, lastFailureTime := t } := by
  simp only [CircuitBreaker.Execute, CircuitBreaker.gate, h, CircuitBreaker.onFailure]
  by_cases hge : cb.maxFailures ≤ cb.failureCount + 1 <;>
    simp [hge, ge_iff_le, h]

/-- A successful call through a closed breaker resets the counter and
keeps the circuit closed. -/
lemma execute_closed_success (cb : CircuitBreaker) (t : Nat)
    (h : cb.state = .closed) :
    (cb.Execute t none).cb = { cb with failureCount := 0 } := by
  simp [CircuitBreaker.Execute, CircuitBreaker.gate, h, CircuitBreaker.onSuccess]

/-- One step of `runFailures` unfolded. -/
lemma runFailures_cons (e : GoError) (cb : CircuitBreaker) (t : Nat) (ts : List Nat) :
    runFailures e cb (t :: ts) = runFailures e (cb.Execute t (some e)).cb ts := rfl

/-- While the running failure count stays strictly below the threshold,
consecutive failures leave the breaker closed and only accumulate the
counter. -/
lemma runFailures_stays_closed (e : GoError) :
    ∀ (ts : List Nat) (cb : CircuitBreaker), cb.state = .closed →
      cb.failureCount + ts.length < cb.maxFailures →
      (runFailures e cb ts).state = .closed ∧
      (runFailures e cb ts).failureCount = cb.failureCount + ts.length ∧
      (runFailures e cb ts).maxFailures = cb.maxFailures
  | [], cb, hst, _ => by simpa [runFailures] using hst
  | t :: ts, cb, hst, hcount => by
    have hlt : ¬ cb.maxFailures ≤ cb.failureCount + 1 := by
      simp only [List.length_cons] at hcount; omega
    have hstep := execute_closed_failure cb t e hst
    rw [if_neg hlt] at hstep
    have hrec := runFailures_stays_closed e ts (cb.Execute t (some e)).cb
      (by rw [hstep]; exact hst)
      (by rw [hstep]
          exact (show cb.failureCount + 1 + ts.length < cb.maxFailures by
            simp only [List.length_cons] at hcount; omega))
    rw [runFailures_cons]
    simp only [List.length_cons]
    refine ⟨hrec.1, ?_, ?_⟩
    · rw [hrec.2.1, hstep]; simp; omega
    · rw [hrec.2.2, hstep]

/-- Once the accumulated failures reach the threshold, the last failing
call opens the circuit and records its instant. -/
lemma runFailures_opens (e : GoError) :
    ∀ (ts : List Nat) (t : Nat) (cb : CircuitBreaker), cb.state = .closed →
      cb.failureCount + (t :: ts).length = cb.maxFailures →
      (runFailures e cb (t :: ts)).state = .open ∧
      (runFailures e cb (t :: ts)).lastFailureTime = (t :: ts).getLast?.getD 0
  | [], t, cb, hst, hcount => by
    have hge : cb.maxFailures ≤ cb.failureCount + 1 := by
      simp only [List.length_cons, List.length_nil] at hcount; omega
    have hstep := execute_closed_failure cb t e hst
    rw [if_pos hge] at hstep
    rw [runFailures_cons]
    simp [runFailures, hstep]
  | t' :: ts, t, cb, hst, hcount => by
    have hlt : ¬ cb.maxFailures ≤ cb.failureCount + 1 := by
      simp only [List.length_cons] at hcount; omega
    have hstep := execute_closed_failure cb t e hst
    rw [if_neg hlt] at hstep
    have hrec := runFailures_opens e ts t' (cb.Execute t (some e)).cb
      (by rw [hstep]; exact hst)
      (by rw [hstep]
          exact (show cb.failureCount + 1 + (t' :: ts).length = cb.maxFailures by
            simp only [List.length_cons] at hcount ⊢; omega))
    rw [runFailures_cons]
    exact ⟨hrec.1, by rw [hrec.2, List.getLast?_cons_cons]⟩

/-- C5: a breaker with threshold `N > 0` starting closed with zero count
opens at exactly the `N`-th consecutive failure and records that
instant; any strict prefix of the failure sequence leaves it closed; and
one success while closed resets the counter to zero with the state still
closed. -/
theorem circuitBreaker_threshold_and_reset (N rt : Nat) (e : GoError) (ts : List Nat)
    (hN : 0 < N) (hlen : ts.length = N) :
    (runFailures e (NewCircuitBreaker N rt) ts).state = .open ∧
    (runFailures e (NewCircuitBreaker N rt) ts).lastFailureTime = ts.getLast?.getD 0 ∧
    (∀ k, k < N → (runFailures e (NewCircuitBreaker N rt) (ts.take k)).state = .closed) ∧
    (∀ (cb : CircuitBreaker) (t : Nat), cb.state = CircuitBreakerState.closed →
      (cb.Execute t none).cb.state = .closed ∧ (cb.Execute t none).cb.failureCount = 0) := by
  obtain ⟨t, ts', rfl⟩ : ∃ t ts', ts = t :: ts' := by
    cases ts with
    | nil => simp at hlen; omega
    | cons a l => exact ⟨a, l, rfl⟩
  simp only [List.length_cons] at hlen
  have hopen := runFailures_opens e ts' t (NewCircuitBreaker N rt) rfl
    (by simp only [NewCircuitBreaker, List.length_cons]; omega)
  refine ⟨hopen.1, hopen.2, ?_, ?_⟩
  · intro k hk
    exact (runFailures_stays_closed e ((t :: ts').take k) (NewCircuitBreaker N rt) rfl
      (by simp only [NewCircuitBreaker, List.length_take, List.length_cons]; omega)).1
  · intro cb u hcb
    rw [execute_closed_success cb u hcb]
    exact ⟨hcb, rfl⟩

/-- Witness for C5: threshold 2, failures at instants 5 and 7. -/
theorem circuitBreaker_threshold_and_reset_witness :
    0 < 2 ∧ ([5, 7] : List Nat).length = 2 ∧
    (runFailures { msg := "boom" } (NewCircuitBreaker 2 60) [5, 7]).state = .open ∧
    (runFailures { msg := "boom" } (NewCircuitBreaker 2 60) [5, 7]).lastFailureTime =
      ([5, 7] : List Nat).getLast?.getD 0 :=
  ⟨by decide, by decide,
    (circuitBreaker_threshold_and_reset 2 60 { msg := "boom" } [5, 7]
      (by decide) (by decide)).1,
    (circuitBreaker_threshold_and_reset 2 60 { msg := "boom" } [5, 7]
      (by decide) (by decide)).2.1⟩

/-- C6: an open breaker rejects every call with `ErrCircuitOpen`, leaving
itself unchanged and never invoking the operation, while the elapsed time
since the last failure has not exceeded the reset timeout; once it has,
the next call passes the gate as a half-open probe with the counter
reset — probe success closes the circuit with counter 0, probe failure
reopens it with the failure timestamp refreshed. -/
theorem circuitBreaker_open_rejects_then_probes (cb : CircuitBreaker) (now : Nat)
    (r : Option GoError) (h : cb.state = .open) :
    (now - cb.lastFailureTime ≤ cb.resetTimeout →
      cb.Execute now r = { err := some ErrCircuitOpen, cb := cb, invoked := false }) ∧
    (cb.resetTimeout < now - cb.lastFailureTime →
      cb.gate now = some { cb with state := .halfOpen, failureCount := 0 } ∧
      cb.Execute now none =
        { err := none, cb := { cb with state := .closed, failureCount := 0 }
          invoked := true } ∧
      (∀ e : GoError, cb.Execute now (some e) =
        { err := some e
          cb := { cb with state := .open, failureCount := 1, lastFailureTime := now }
          invoked := true })) := by
  constructor
  · intro hle
    have hno : ¬ (now - cb.lastFailureTime > cb.resetTimeout) := by omega
    simp [CircuitBreaker.Execute, CircuitBreaker.gate, h, hno]
  · intro hgt
    have hcond : now - cb.lastFailureTime > cb.resetTimeout := hgt
    refine ⟨by simp [CircuitBreaker.gate, h, hcond], ?_, ?_⟩
    · simp [CircuitBreaker.Execute, CircuitBreaker.gate, h, hcond, CircuitBreaker.onSuccess]
    · intro e
      simp [CircuitBreaker.Execute, CircuitBreaker.gate, h, hcond, CircuitBreaker.onFailure]

/-- Witness for C6: an open breaker probed 5 time units after the last
failure with a 10-unit reset timeout is rejected unchanged. -/
theorem circuitBreaker_open_rejects_witness :
    ({ maxFailures := 3, resetTimeout := 10, failureCount := 3, lastFailureTime := 100
       state := .open } : CircuitBreaker).state = CircuitBreakerState.open ∧
    (105 - 100 ≤ 10) ∧
    ({ maxFailures := 3, resetTimeout := 10, failureCount := 3, lastFailureTime := 100
       state := .open } : CircuitBreaker).Execute 105 none =
      { err := some ErrCircuitOpen
        cb := { maxFailures := 3, resetTimeout := 10, failureCount := 3
                lastFailureTime := 100, state := .open }
        invoked := false } :=
  ⟨rfl, by decide,
    (circuitBreaker_open_rejects_then_probes _ 105 none rfl).1 (by decide)⟩

end BreakerTheorems

section DeadLetterTheorems

/-- A key the map does not hold is found neither by `find?`. -/
lemma find?_eq_none_of_not_hasKey (l : List (String × FailedOperation)) (k : String)
    (h : mapHasKey l k = false) : l.find? (fun p => p.1 = k) = none := by
  rw [List.find?_eq_none]
  intro p hp
  simp only [mapHasKey, List.any_eq_false] at h
  simpa using h p hp

/-- Appending a fresh entry makes it visible to lookup. -/
lemma mapLookup_append_fresh (l : List (String × FailedOperation)) (k : String)
    (v : FailedOperation) (h : mapHasKey l k = false) :
    mapLookup (l ++ [(k, v)]) k = some v := by
  induction l with
  | nil => simp [mapLookup]
  | cons p l ih =>
    simp only [mapHasKey, List.any_cons, Bool.or_eq_false_iff] at h
    have hp : ¬ p.1 = k := by simpa using h.1
    have hrec := ih (by
      have := h.2
      simp only [mapHasKey]
      exact this)
    simpa [mapLookup, List.find?_cons, hp] using hrec

/-- Replacing the entry at a held key makes the new value visible to
lookup. -/
lemma mapLookup_replace (k : String) (v : FailedOperation) :
    ∀ l : List (String × FailedOperation), mapHasKey l k = true →
      mapLookup (l.map (fun p => if p.1 = k then (k, v) else p)) k = some v
  | [], h => by simp [mapHasKey] at h
  | p :: l, h => by
    by_cases hp : p.1 = k
    · simp [mapLookup, List.find?_cons, hp]
    · have h2 : mapHasKey l k = true := by
        simp only [mapHasKey, List.any_cons, Bool.or_eq_true] at h
        rcases h with hh | hh
        · exact absurd (of_decide_eq_true hh) hp
        · simp only [mapHasKey]
          exact hh
      have hrec := mapLookup_replace k v l h2
      simpa [mapLookup, List.find?_cons, hp] using hrec

/-- Replacing the entry at a held key leaves the key list unchanged. -/
lemma keys_replace (k : String) (v : FailedOperation)
    (l : List (String × FailedOperation)) :
    (l.map (fun p => if p.1 = k then (k, v) else p)).map Prod.fst = l.map Prod.fst := by
  induction l with
  | nil => rfl
  | cons p l ih =>
    by_cases hp : p.1 = k <;> simp [hp, ih]

/-- Below capacity with a fresh identifier, `add` appends the stamped
entry and notifies every listener. -/
lemma add_fresh_eq (dlq : DeadLetterQueue) (op : FailedOperation) (now : Nat)
    (hroom : dlq.size < dlq.maxSize) (hfresh : mapHasKey dlq.operations op.id = false) :
    dlq.add op now =
      (none,
       { dlq with operations := dlq.operations ++ [(op.id, { op with timestamp := now })] },
       dlq.listeners.map (fun name => (name, { op with timestamp := now }))) := by
  have hlt : ¬ (dlq.operations.length ≥ dlq.maxSize) := not_le.mpr hroom
  simp only [DeadLetterQueue.add, if_neg hlt, mapInsert, hfresh]
  simp

/-- Below capacity with a held identifier, `add` replaces the stored
entry in place and notifies every listener. -/
lemma add_dup_eq (dlq : DeadLetterQueue) (op : FailedOperation) (now : Nat)
    (hroom : dlq.size < dlq.maxSize) (hdup : mapHasKey dlq.operations op.id = true) :
    dlq.add op now =
      (none,
       { dlq with operations := (dlq.operations.map
           (fun p => if p.1 = op.id then (op.id, { op with timestamp := now }) else p)) },
       dlq.listeners.map (fun name => (name, { op with timestamp := now }))) := by
  have hlt : ¬ (dlq.operations.length ≥ dlq.maxSize) := not_le.mpr hroom
  simp only [DeadLetterQueue.add, if_neg hlt, mapInsert, hdup]
  simp

/-- C8: `add` on a dead-letter queue already at capacity returns the
queue-full error leaving the stored entries untouched; below capacity and
with a fresh identifier it succeeds, grows the store by one, stamps the
entry timestamp, and notifies every registered listener once with the new
entry; in particular a capacity-2 queue accepts two adds, rejects the
third with the queue-full error, and keeps size 2. -/
theorem deadLetterQueue_add_spec (dlq : DeadLetterQueue) (op : FailedOperation)
    (now : Nat) :
    (dlq.maxSize ≤ dlq.size → dlq.add op now = (some ErrQueueFull, dlq, [])) ∧
    (dlq.size < dlq.maxSize → mapHasKey dlq.operations op.id = false →
      (dlq.add op now).1 = none ∧
      (dlq.add op now).2.1.size = dlq.size + 1 ∧
      mapLookup (dlq.add op now).2.1.operations op.id = some { op with timestamp := now } ∧
      (dlq.add op now).2.2 =
        dlq.listeners.map (fun name => (name, { op with timestamp := now }))) ∧
    ((((NewDeadLetterQueue 2).add (sampleOp "a" "x" 0) 1).2.1.add
        (sampleOp "b" "y" 0) 2).2.1.add (sampleOp "c" "z" 0) 3).1 = some ErrQueueFull ∧
    ((((NewDeadLetterQueue 2).add (sampleOp "a" "x" 0) 1).2.1.add
        (sampleOp "b" "y" 0) 2).2.1.add (sampleOp "c" "z" 0) 3).2.1.size = 2 := by
  refine ⟨?_, ?_, by decide, by decide⟩
  · intro hfull
    have hc : dlq.operations.length ≥ dlq.maxSize := hfull
    simp only [DeadLetterQueue.add]
    rw [if_pos hc]
  · intro hroom hfresh
    rw [add_fresh_eq dlq op now hroom hfresh]
    refine ⟨rfl, by simp [DeadLetterQueue.size], ?_, rfl⟩
    exact mapLookup_append_fresh dlq.operations op.id _ hfresh

/-- Witness for C8: `sampleQueue` (capacity 3, one entry, one listener)
accepts a fresh entry, growing to size 2. -/
theorem deadLetterQueue_add_spec_witness :
    sampleQueue.size < sampleQueue.maxSize ∧
    mapHasKey sampleQueue.operations (sampleOp "b" "y" 2).id = false ∧
    (sampleQueue.add (sampleOp "b" "y" 2) 7).1 = none ∧
    (sampleQueue.add (sampleOp "b" "y" 2) 7).2.1.size = sampleQueue.size + 1 :=
  ⟨by decide, by decide,
    ((deadLetterQueue_add_spec sampleQueue (sampleOp "b" "y" 2) 7).2.1
      (by decide) (by decide)).1,
    ((deadLetterQueue_add_spec sampleQueue (sampleOp "b" "y" 2) 7).2.1
      (by decide) (by decide)).2.1⟩

/-- C10: below capacity, `add` with an identifier already stored succeeds
and replaces the previous entry in place — the entry count and the key
list are unchanged and lookup returns the new, re-stamped entry; at
capacity, `add` rejects with the queue-full error even when the
identifier is already present, so no in-place update happens. -/
theorem deadLetterQueue_add_duplicate (dlq : DeadLetterQueue) (op : FailedOperation)
    (now : Nat) :
    (dlq.size < dlq.maxSize → mapHasKey dlq.operations op.id = true →
      (dlq.add op now).1 = none ∧
      (dlq.add op now).2.1.size = dlq.size ∧
      mapLookup (dlq.add op now).2.1.operations op.id = some { op with timestamp := now } ∧
      (dlq.add op now).2.1.operations.map Prod.fst = dlq.operations.map Prod.fst) ∧
    (dlq.maxSize ≤ dlq.size → mapHasKey dlq.operations op.id = true →
      dlq.add op now = (some ErrQueueFull, dlq, [])) := by
  constructor
  · intro hroom hdup
    rw [add_dup_eq dlq op now hroom hdup]
    refine ⟨rfl, by simp [DeadLetterQueue.size], ?_, ?_⟩
    · exact mapLookup_replace op.id _ dlq.operations hdup
    · exact keys_replace op.id _ dlq.operations
  · intro hfull _
    have hc : dlq.operations.length ≥ dlq.maxSize := hfull
    simp only [DeadLetterQueue.add]
    rw [if_pos hc]

/-- Witness for C10: `sampleQueue2` (capacity 2, entry "a" stored) accepts
a replacement for "a" keeping size 1. -/
theorem deadLetterQueue_add_duplicate_witness :
    sampleQueue2.size < sampleQueue2.maxSize ∧
    mapHasKey sampleQueue2.operations (sampleOp "a" "w" 5).id = true ∧
    (sampleQueue2.add (sampleOp "a" "w" 5) 9).2.1.size = sampleQueue2.size :=
  ⟨by decide, by decide,
    ((deadLetterQueue_add_duplicate sampleQueue2 (sampleOp "a" "w" 5) 9).1
      (by decide) (by decide)).2.1⟩

end DeadLetterTheorems

section RetryTheorems

/-- Loop step: a succeeding invocation returns ok at once. -/
lemma retryGo_step_ok (cfg : RetryConfig) {σ : Type} (op : σ → Option GoError × σ)
    (c : Bool) (jA : Nat → Nat) (fuel attempt : Nat) (backoff : ℚ)
    (lastErr : Option GoError) (s s2 : σ) (hop : op s = (none, s2)) :
    retryGo cfg op c jA (fuel + 1) attempt backoff lastErr s =
      { result := .ok, state := s2, iterations := 1, sleeps := [] } := by
  simp [retryGo, hop]

/-- Loop step: a failure the predicate rejects is wrapped and returned at
once, with no sleep. -/
lemma retryGo_step_nonretryable (cfg : RetryConfig) {σ : Type}
    (op : σ → Option GoError × σ) (c : Bool) (jA : Nat → Nat) (fuel attempt : Nat)
    (backoff : ℚ) (lastErr : Option GoError) (s s2 : σ) (err : GoError)
    (hop : op s = (some err, s2)) (h1 : notRetryable cfg err = true) :
    retryGo cfg op c jA (fuel + 1) attempt backoff lastErr s =
      { result := .nonRetryable err, state := s2, iterations := 1, sleeps := [] } := by
  simp [retryGo, hop, h1]

/-- Loop step: a retryable failure on the last allowed attempt returns the
max-retries wrap. -/
lemma retryGo_step_last (cfg : RetryConfig) {σ : Type} (op : σ → Option GoError × σ)
    (c : Bool) (jA : Nat → Nat) (fuel : Nat) (backoff : ℚ)
    (lastErr : Option GoError) (s s2 : σ) (err : GoError)
    (hop : op s = (some err, s2)) (h1 : notRetryable cfg err = false) :
    retryGo cfg op c jA (fuel + 1) cfg.maxRetries backoff lastErr s =
      { result := .exhausted (cfg.maxRetries + 1) (some err), state := s2
        iterations := 1, sleeps := [] } := by
  simp [retryGo, hop, h1]

/-- Loop step: a retryable failure before the last attempt sleeps the
jittered backoff and recurses with the grown backoff. -/
lemma retryGo_step_cont (cfg : RetryConfig) {σ : Type} (op : σ → Option GoError × σ)
    (jA : Nat → Nat) (fuel attempt : Nat) (backoff : ℚ)
    (lastErr : Option GoError) (s s2 : σ) (err : GoError)
    (hop : op s = (some err, s2)) (h1 : notRetryable cfg err = false)
    (h2 : attempt ≠ cfg.maxRetries) :
    retryGo cfg op false jA (fuel + 1) attempt backoff lastErr s =
      { result := (retryGo cfg op false jA fuel (attempt + 1)
          (if backoff * cfg.backoffMultiplier > cfg.maxBackoff then cfg.maxBackoff
           else backoff * cfg.backoffMultiplier) (some err) s2).result
        state := (retryGo cfg op false jA fuel (attempt + 1)
          (if backoff * cfg.backoffMultiplier > cfg.maxBackoff then cfg.maxBackoff
           else backoff * cfg.backoffMultiplier) (some err) s2).state
        iterations := (retryGo cfg op false jA fuel (attempt + 1)
          (if backoff * cfg.backoffMultiplier > cfg.maxBackoff then cfg.maxBackoff
           else backoff * cfg.backoffMultiplier) (some err) s2).iterations + 1
        sleeps := calculateBackoffWithJitter backoff cfg.maxBackoff (jA attempt) ::
          (retryGo cfg op false jA fuel (attempt + 1)
            (if backoff * cfg.backoffMultiplier > cfg.maxBackoff then cfg.maxBackoff
             else backoff * cfg.backoffMultiplier) (some err) s2).sleeps } := by
  simp [retryGo, hop, h1, h2]

/-- The retry loop runs its body at most `fuel` times. -/
lemma retryGo_iterations_le (cfg : RetryConfig) {σ : Type}
    (op : σ → Option GoError × σ) (jA : Nat → Nat) :
    ∀ (fuel attempt : Nat) (backoff : ℚ) (lastErr : Option GoError) (s : σ),
      (retryGo cfg op false jA fuel attempt backoff lastErr s).iterations ≤ fuel
  | 0, _, _, _, _ => by simp [retryGo]
  | fuel + 1, attempt, backoff, lastErr, s => by
    rcases hop : op s with ⟨e, s2⟩
    cases e with
    | none =>
      rw [retryGo_step_ok cfg op false jA fuel attempt backoff lastErr s s2 hop]
      exact show 1 ≤ fuel + 1 by omega
    | some err =>
      cases h1 : notRetryable cfg err with
      | true =>
        rw [retryGo_step_nonretryable cfg op false jA fuel attempt backoff lastErr
          s s2 err hop h1]
        exact show 1 ≤ fuel + 1 by omega
      | false =>
        by_cases h2 : attempt = cfg.maxRetries
        · subst h2
          rw [retryGo_step_last cfg op false jA fuel backoff lastErr s s2 err hop h1]
          exact show 1 ≤ fuel + 1 by omega
        · rw [retryGo_step_cont cfg op jA fuel attempt backoff lastErr s s2 err hop h1 h2]
          have ih := retryGo_iterations_le cfg op jA fuel (attempt + 1)
            (if backoff * cfg.backoffMultiplier > cfg.maxBackoff then cfg.maxBackoff
             else backoff * cfg.backoffMultiplier) (some err) s2
          exact Nat.succ_le_succ ih

/-- Each loop iteration invokes `countingOp` exactly once: the final
counter is the start counter plus the iteration count. -/
lemma retryGo_counting_state (cfg : RetryConfig) (f : Nat → Option GoError)
    (jA : Nat → Nat) :
    ∀ (fuel attempt : Nat) (backoff : ℚ) (lastErr : Option GoError) (s : Nat),
      (retryGo cfg (countingOp f) false jA fuel attempt backoff lastErr s).state =
        s + (retryGo cfg (countingOp f) false jA fuel attempt backoff lastErr s).iterations
  | 0, _, _, _, _ => by simp [retryGo]
  | fuel + 1, attempt, backoff, lastErr, s => by
    have hop : countingOp f s = (f s, s + 1) := rfl
    cases hfs : f s with
    | none =>
      rw [retryGo_step_ok cfg (countingOp f) false jA fuel attempt backoff lastErr
        s (s + 1) (by rw [hop, hfs])]
    | some err =>
      cases h1 : notRetryable cfg err with
      | true =>
        rw [retryGo_step_nonretryable cfg (countingOp f) false jA fuel attempt backoff
          lastErr s (s + 1) err (by rw [hop, hfs]) h1]
      | false =>
        by_cases h2 : attempt = cfg.maxRetries
        · subst h2
          rw [retryGo_step_last cfg (countingOp f) false jA fuel backoff lastErr
            s (s + 1) err (by rw [hop, hfs]) h1]
        · rw [retryGo_step_cont cfg (countingOp f) jA fuel attempt backoff lastErr
            s (s + 1) err (by rw [hop, hfs]) h1 h2]
          have ih := retryGo_counting_state cfg f jA fuel (attempt + 1)
            (if backoff * cfg.backoffMultiplier > cfg.maxBackoff then cfg.maxBackoff
             else backoff * cfg.backoffMultiplier) (some err) (s + 1)
          simp only [ih]
          omega

/-- With a retryable-everything predicate, the loop returns success at the
first succeeding invocation: if invocation `k` is the first success the
result is ok after exactly `k + 1 - attempt` further iterations. -/
lemma retryGo_first_success (cfg : RetryConfig) (p : GoError → Bool)
    (hp : cfg.retryableErrors = some p) (hall : ∀ e, p e = true)
    (f : Nat → Option GoError) (jA : Nat → Nat) :
    ∀ (fuel attempt k : Nat) (backoff : ℚ) (lastErr : Option GoError),
      attempt + fuel = cfg.maxRetries + 1 → attempt ≤ k → k ≤ cfg.maxRetries →
      f k = none → (∀ i, attempt ≤ i → i < k → f i ≠ none) →
      (retryGo cfg (countingOp f) false jA fuel attempt backoff lastErr attempt).result = .ok ∧
      (retryGo cfg (countingOp f) false jA fuel attempt backoff lastErr attempt).iterations =
        k + 1 - attempt
  | 0, attempt, k, _, _, hfa, hak, hkn, _, _ => by omega
  | fuel + 1, attempt, k, backoff, lastErr, hfa, hak, hkn, hk, hpre => by
    by_cases heq : attempt = k
    · rw [retryGo_step_ok cfg (countingOp f) false jA fuel attempt backoff lastErr
        attempt (attempt + 1) (by simp [countingOp, heq, hk])]
      exact ⟨rfl, show 1 = k + 1 - attempt by omega⟩
    · have hlt : attempt < k := lt_of_le_of_ne hak heq
      cases hfa2 : f attempt with
      | none => exact absurd hfa2 (hpre attempt le_rfl hlt)
      | some err =>
        have h1 : notRetryable cfg err = false := by simp [notRetryable, hp, hall]
        have h2 : attempt ≠ cfg.maxRetries := by omega
        rw [retryGo_step_cont cfg (countingOp f) jA fuel attempt backoff lastErr
          attempt (attempt + 1) err (by simp [countingOp, hfa2]) h1 h2]
        have ih := retryGo_first_success cfg p hp hall f jA fuel (attempt + 1) k
          (if backoff * cfg.backoffMultiplier > cfg.maxBackoff then cfg.maxBackoff
           else backoff * cfg.backoffMultiplier) (some err)
          (by omega) (by omega) hkn hk
          (fun i hi hik => hpre i (by omega) hik)
        refine ⟨ih.1, ?_⟩
        simp only [ih.2]
        omega

/-- With a retryable-everything predicate and every invocation failing,
the loop exhausts the budget: the result is the max-retries wrap carrying
`maxRetries + 1` and the error of the last invocation, after exactly
`fuel` iterations. -/
lemma retryGo_all_fail (cfg : RetryConfig) (p : GoError → Bool)
    (hp : cfg.retryableErrors = some p) (hall : ∀ e, p e = true)
    (f : Nat → Option GoError) (jA : Nat → Nat) :
    ∀ (fuel attempt : Nat) (backoff : ℚ) (lastErr : Option GoError),
      attempt + fuel = cfg.maxRetries + 1 → 0 < fuel →
      (∀ i, attempt ≤ i → i ≤ cfg.maxRetries → f i ≠ none) →
      (retryGo cfg (countingOp f) false jA fuel attempt backoff lastErr attempt).result =
        .exhausted (cfg.maxRetries + 1) (f cfg.maxRetries) ∧
      (retryGo cfg (countingOp f) false jA fuel attempt backoff lastErr attempt).iterations = fuel
  | 0, _, _, _, _, hpos, _ => by omega
  | fuel + 1, attempt, backoff, lastErr, hfa, _, hfail => by
    have han : attempt ≤ cfg.maxRetries := by omega
    cases hfa2 : f attempt with
    | none => exact absurd hfa2 (hfail attempt le_rfl han)
    | some err =>
      have h1 : notRetryable cfg err = false := by simp [notRetryable, hp, hall]
      by_cases h2 : attempt = cfg.maxRetries
      · have hfuel : fuel = 0 := by omega
        subst hfuel
        rw [h2]
        rw [retryGo_step_last cfg (countingOp f) false jA 0 backoff lastErr
          cfg.maxRetries (cfg.maxRetries + 1) err (by simp [countingOp, ← h2, hfa2]) h1]
        exact ⟨by simp [← h2, hfa2], rfl⟩
      · rw [retryGo_step_cont cfg (countingOp f) jA fuel attempt backoff lastErr
          attempt (attempt + 1) err (by simp [countingOp, hfa2]) h1 h2]
        have ih := retryGo_all_fail cfg p hp hall f jA fuel (attempt + 1)
          (if backoff * cfg.backoffMultiplier > cfg.maxBackoff then cfg.maxBackoff
           else backoff * cfg.backoffMultiplier) (some err)
          (by omega) (by omega) (fun i hi hin => hfail i (by omega) hin)
        exact ⟨ih.1, by simp only [ih.2]⟩

/-- C4: with `maxRetries = n` and a predicate classifying every error as
retryable, the retry executor invokes the operation at most `n + 1` times
(the invocation counter equals the iteration count); it returns success
at the first succeeding invocation, having invoked the operation exactly
`k + 1` times when the first success is invocation `k`; and when every
invocation fails it returns the max-retries-exceeded wrap reporting
`n + 1` attempts and carrying the last failure. -/
theorem retryOperation_budget_and_success (cfg : RetryConfig) (p : GoError → Bool)
    (hp : cfg.retryableErrors = some p) (hall : ∀ e, p e = true)
    (f : Nat → Option GoError) (jA : Nat → Nat) :
    ((RetryOperation cfg (countingOp f) false jA 0).iterations ≤ cfg.maxRetries + 1 ∧
      (RetryOperation cfg (countingOp f) false jA 0).state =
        (RetryOperation cfg (countingOp f) false jA 0).iterations) ∧
    (∀ k, k ≤ cfg.maxRetries → f k = none → (∀ i, i < k → f i ≠ none) →
      (RetryOperation cfg (countingOp f) false jA 0).result = .ok ∧
      (RetryOperation cfg (countingOp f) false jA 0).iterations = k + 1) ∧
    ((∀ i, i ≤ cfg.maxRetries → f i ≠ none) →
      (RetryOperation cfg (countingOp f) false jA 0).result =
        .exhausted (cfg.maxRetries + 1) (f cfg.maxRetries)) := by
  refine ⟨⟨?_, ?_⟩, ?_, ?_⟩
  · exact retryGo_iterations_le cfg (countingOp f) jA (cfg.maxRetries + 1) 0
      cfg.initialBackoff none 0
  · simpa using retryGo_counting_state cfg f jA (cfg.maxRetries + 1) 0
      cfg.initialBackoff none 0
  · intro k hkn hk hpre
    have h := retryGo_first_success cfg p hp hall f jA (cfg.maxRetries + 1) 0 k
      cfg.initialBackoff none (by omega) (by omega) hkn hk
      (fun i _ hik => hpre i hik)
    exact ⟨h.1, by rw [RetryOperation, h.2]; omega⟩
  · intro hfail
    exact (retryGo_all_fail cfg p hp hall f jA (cfg.maxRetries + 1) 0
      cfg.initialBackoff none (by omega) (by omega)
      (fun i _ hin => hfail i hin)).1

/-- Witness for C4: failing twice then succeeding under `maxRetries = 3`
returns success after exactly 3 invocations. -/
theorem retryOperation_budget_and_success_witness :
    retryAllCfg.retryableErrors = some (fun _ => true) ∧
    2 ≤ retryAllCfg.maxRetries ∧ failTwiceOp 2 = none ∧
    ((RetryOperation retryAllCfg (countingOp failTwiceOp) false (fun _ => 0) 0).result =
        .ok ∧
      (RetryOperation retryAllCfg (countingOp failTwiceOp) false (fun _ => 0) 0).iterations =
        3) :=
  ⟨rfl, by decide, by decide,
    (retryOperation_budget_and_success retryAllCfg (fun _ => true) rfl (fun _ => rfl)
        failTwiceOp (fun _ => 0)).2.1 2 (by decide) (by decide)
      (fun i hi => by
        match i, hi with
        | 0, _ => decide
        | 1, _ => decide)⟩

end RetryTheorems

section RetryBreakerTheorems

/-- Counterexample for C2: composing the default retry configuration with
a breaker of threshold 2 over an always-failing retryable operation. The
breaker opens after the second failing attempt; the third attempt is
rejected with the circuit-open error, which `IsRetryableError` classifies
as non-retryable, so the loop returns at that first rejection after 3 of
the 6 budgeted attempts (2 operation invocations, 2 backoff sleeps) —
the rejections are not absorbed as further attempts of the loop. -/
theorem retryWithCircuitBreaker_rejection_counterexample :
    (RetryWithCircuitBreaker DefaultRetryConfig (NewCircuitBreaker 2 60) (fun i => i)
        (fun _ => some { msg := "timeout" }) false (fun _ => 0)).result =
      .nonRetryable ErrCircuitOpen ∧
    (RetryWithCircuitBreaker DefaultRetryConfig (NewCircuitBreaker 2 60) (fun i => i)
        (fun _ => some { msg := "timeout" }) false (fun _ => 0)).iterations = 3 ∧
    (RetryWithCircuitBreaker DefaultRetryConfig (NewCircuitBreaker 2 60) (fun i => i)
        (fun _ => some { msg := "timeout" }) false (fun _ => 0)).state.innerCalls = 2 ∧
    (RetryWithCircuitBreaker DefaultRetryConfig (NewCircuitBreaker 2 60) (fun i => i)
        (fun _ => some { msg := "timeout" }) false (fun _ => 0)).sleeps.length = 2 ∧
    (RetryWithCircuitBreaker DefaultRetryConfig (NewCircuitBreaker 2 60) (fun i => i)
        (fun _ => some { msg := "timeout" }) false (fun _ => 0)).iterations ≠
      DefaultRetryConfig.maxRetries + 1 := by
  decide

/-- C2 amended: when the breaker is open within its reset window as the
retry loop (running under the default retryability predicate) re-enters
it, that attempt is rejected immediately with the circuit-open error —
the wrapped operation is not invoked and the breaker is unchanged — and
the rejection is classified as non-retryable, so the loop returns it at
once: one attempt is consumed, no backoff sleep happens, and the
remaining retry budget is not consumed. -/
theorem retryWithBreaker_failFast (cfg : RetryConfig)
    (hp : cfg.retryableErrors = some (fun e => IsRetryableError (some e)))
    (timeAt : Nat → Nat) (innerResults : Nat → Option GoError) (jA : Nat → Nat)
    (fuel attempt : Nat) (backoff : ℚ) (lastErr : Option GoError)
    (s : BreakerLoopState) (hopen : s.cb.state = .open)
    (helapsed : timeAt s.iter - s.cb.lastFailureTime ≤ s.cb.resetTimeout) :
    retryGo cfg (breakerOp timeAt innerResults) false jA (fuel + 1) attempt backoff
        lastErr s =
      { result := .nonRetryable ErrCircuitOpen
        state := { iter := s.iter + 1, cb := s.cb, innerCalls := s.innerCalls }
        iterations := 1, sleeps := [] } := by
  have hno : ¬ (timeAt s.iter - s.cb.lastFailureTime > s.cb.resetTimeout) := by omega
  have hexec : s.cb.Execute (timeAt s.iter) (innerResults s.innerCalls) =
      { err := some ErrCircuitOpen, cb := s.cb, invoked := false } := by
    simp [CircuitBreaker.Execute, CircuitBreaker.gate, hopen, hno]
  have hop : breakerOp timeAt innerResults s =
      (some ErrCircuitOpen,
       { iter := s.iter + 1, cb := s.cb, innerCalls := s.innerCalls }) := by
    simp [breakerOp, hexec]
  have h1 : notRetryable cfg ErrCircuitOpen = true := by
    simp only [notRetryable, hp]
    decide
  rw [retryGo_step_nonretryable cfg (breakerOp timeAt innerResults) false jA fuel
    attempt backoff lastErr s _ ErrCircuitOpen hop h1]

/-- Witness for the amended C2: the breaker opened at instant 1 with a
60-unit reset window, re-entered at instant 2 on the third attempt of a
default-config loop. -/
theorem retryWithBreaker_failFast_witness :
    DefaultRetryConfig.retryableErrors = some (fun e => IsRetryableError (some e)) ∧
    ({ iter := 2
       cb := { maxFailures := 2, resetTimeout := 60, failureCount := 2
               lastFailureTime := 1, state := .open }
       innerCalls := 2 } : BreakerLoopState).cb.state = CircuitBreakerState.open ∧
    retryGo DefaultRetryConfig
        (breakerOp (fun i => i) (fun _ => some { msg := "timeout" })) false (fun _ => 0)
        (3 + 1) 2 4 (some { msg := "timeout" })
        { iter := 2
          cb := { maxFailures := 2, resetTimeout := 60, failureCount := 2
                  lastFailureTime := 1, state := .open }
          innerCalls := 2 } =
      { result := .nonRetryable ErrCircuitOpen
        state := { iter := 3
                   cb := { maxFailures := 2, resetTimeout := 60, failureCount := 2
                           lastFailureTime := 1, state := .open }
                   innerCalls := 2 }
        iterations := 1, sleeps := [] } :=
  ⟨rfl, rfl,
    retryWithBreaker_failFast DefaultRetryConfig rfl (fun i => i)
      (fun _ => some { msg := "timeout" }) (fun _ => 0) 3 2 4
      (some { msg := "timeout" })
      { iter := 2
        cb := { maxFailures := 2, resetTimeout := 60, failureCount := 2
                lastFailureTime := 1, state := .open }
        innerCalls := 2 } rfl (by decide)⟩

end RetryBreakerTheorems

section ControllerTheorems

/-- When every one of the `count` calls succeeds, the loop issues all of
them and reports no error. -/
lemma runCallsFrom_all_none (res : Nat → Option GoError) :
    ∀ (count start : Nat), (∀ j, start ≤ j → j < start + count → res j = none) →
      runCallsFrom res start count = (count, none)
  | 0, _, _ => rfl
  | count + 1, start, h => by
    have h0 : res start = none := h start le_rfl (by omega)
    have hrec := runCallsFrom_all_none res count (start + 1)
      (fun j hj1 hj2 => h j (by omega) (by omega))
    simp [runCallsFrom, h0, hrec]

/-- When call `m` is the first failing call, the loop stops there having
issued `m - start + 1` calls and reports that error. -/
lemma runCallsFrom_first_fail (res : Nat → Option GoError) :
    ∀ (count start m : Nat) (e : GoError), start ≤ m → m < start + count →
      res m = some e → (∀ j, start ≤ j → j < m → res j = none) →
      runCallsFrom res start count = (m - start + 1, some e)
  | 0, start, m, _, h1, h2, _, _ => by omega
  | count + 1, start, m, e, h1, h2, hm, hpre => by
    by_cases heq : start = m
    · subst heq
      simp [runCallsFrom, hm]
    · have hlt : start < m := lt_of_le_of_ne h1 heq
      have h0 : res start = none := hpre start le_rfl hlt
      have hrec := runCallsFrom_first_fail res count (start + 1) m e
        (by omega) (by omega) hm (fun j hj1 hj2 => hpre j (by omega) hj2)
      simp only [runCallsFrom, h0, hrec, Prod.mk.injEq]
      exact ⟨by omega, by simp⟩

/-- Removing the finalization marker really removes it. -/
lemma containsString_removeString (l : List String) (s : String) :
    containsString (removeString l s) s = false := by
  simp only [containsString, removeString, List.any_eq_false]
  intro x hx
  have hmem := (List.mem_filter.mp hx).2
  simpa using of_decide_eq_true hmem

/-- C1: a pass over a descriptor without a tombstone, with a successful
provider listing whose instance count equals the computed desired
capacity, issues zero provider create calls and zero delete calls,
returns no error, and sets the status phase to "Ready". -/
theorem reconcile_idempotent (pool : NodePool) (env : ReconcileEnv)
    (servers : List Server)
    (hts : pool.deletionTimestampSet = false)
    (hlist : env.listServers = .ok servers)
    (hdes : (servers.length : Int) =
      desiredNodes pool.spec (servers.length : Int) env.podList) :
    (reconcile pool env).createCalls = 0 ∧
    (reconcile pool env).deleteCalls = 0 ∧
    (reconcile pool env).err = none ∧
    (reconcile pool env).pool.status.phase = "Ready" := by
  have hlt : ¬ ((servers.length : Int) <
      desiredNodes pool.spec (servers.length : Int) env.podList) := by
    rw [← hdes]; exact lt_irrefl _
  have hgt : ¬ ((servers.length : Int) >
      desiredNodes pool.spec (servers.length : Int) env.podList) := by
    rw [← hdes]; exact lt_irrefl _
  by_cases hfin : containsString pool.finalizers nodePoolFinalizer <;>
    simp [reconcile, hts, hlist, hfin, hlt, hgt]

/-- Witness for C1: `minNodes = 1, maxNodes = 5, targetNodes = 3`, three
observed instances. -/
theorem reconcile_idempotent_witness :
    steadyPool.deletionTimestampSet = false ∧
    ((threeServers.length : Int) =
      desiredNodes steadyPool.spec (threeServers.length : Int) steadyEnv.podList) ∧
    ((reconcile steadyPool steadyEnv).createCalls = 0 ∧
      (reconcile steadyPool steadyEnv).deleteCalls = 0 ∧
      (reconcile steadyPool steadyEnv).err = none ∧
      (reconcile steadyPool steadyEnv).pool.status.phase = "Ready") :=
  ⟨rfl, by decide,
    reconcile_idempotent steadyPool steadyEnv threeServers rfl rfl (by decide)⟩

/-- C3 failing-scenario evaluation: with every provider create failing
(retries exhausted inside the wrapped client), the pass returns the error
to the caller and records the failure in status (phase "ScaleUpFailed")
after one create call; no dead-letter record is produced anywhere —
nothing in the repository ever calls `DeadLetterQueue.Add`, so the
reconciler has no dead-letter effect to model. -/
theorem reconcile_createFailure_status_only :
    (reconcile dlScenarioPool dlScenarioEnv).err = some { msg := "simulated error" } ∧
    (reconcile dlScenarioPool dlScenarioEnv).pool.status.phase = "ScaleUpFailed" ∧
    (reconcile dlScenarioPool dlScenarioEnv).createCalls = 1 := by
  decide

/-- C9: a pass over a tombstoned descriptor with the finalization marker
present lists the instances and deletes each in order; a listing failure
is returned with the marker retained and no delete issued; when every
provider delete succeeds the marker is removed and all instances were
deleted; when delete `m` is the first to fail, that error is returned,
`m + 1` deletes were issued, and the marker is retained. -/
theorem handleDeletion_semantics (pool : NodePool) (env : ReconcileEnv)
    (hts : pool.deletionTimestampSet = true)
    (hfin : containsString pool.finalizers nodePoolFinalizer = true) :
    (∀ e, env.listServers = .error e →
      reconcile pool env =
        { pool := pool, createCalls := 0, deleteCalls := 0, err := some e }) ∧
    (∀ servers, env.listServers = .ok servers →
      ((∀ i, i < servers.length → env.deleteResults i = none) →
        (reconcile pool env).deleteCalls = servers.length ∧
        (reconcile pool env).err = none ∧
        containsString (reconcile pool env).pool.finalizers nodePoolFinalizer = false) ∧
      (∀ m e, m < servers.length → env.deleteResults m = some e →
        (∀ j, j < m → env.deleteResults j = none) →
        (reconcile pool env).err = some e ∧
        (reconcile pool env).deleteCalls = m + 1 ∧
        containsString (reconcile pool env).pool.finalizers nodePoolFinalizer = true)) := by
  refine ⟨?_, ?_⟩
  · intro e hlist
    simp [reconcile, hts, handleDeletion, hfin, hlist]
  · intro servers hlist
    constructor
    · intro hall
      have hrun : runCalls env.deleteResults servers.length = (servers.length, none) :=
        runCallsFrom_all_none env.deleteResults servers.length 0
          (fun j _ hj => hall j (by omega))
      simp [reconcile, hts, handleDeletion, hfin, hlist, runCalls] at *
      simp [hrun, containsString_removeString]
    · intro m e hm hme hpre
      have hrun : runCalls env.deleteResults servers.length = (m + 1, some e) := by
        have := runCallsFrom_first_fail env.deleteResults servers.length 0 m e
          (by omega) (by omega) hme (fun j _ hj => hpre j hj)
        simpa [runCalls] using this
      simp [reconcile, hts, handleDeletion, hfin, hlist, hrun]

/-- Witness for C9: a tombstoned pool with the marker, two observed
instances, all deletes succeeding — two deletes issued, no error, marker
removed. -/
theorem handleDeletion_semantics_witness :
    deletingPool.deletionTimestampSet = true ∧
    containsString deletingPool.finalizers nodePoolFinalizer = true ∧
    ((reconcile deletingPool deletingEnv).deleteCalls = 2 ∧
      (reconcile deletingPool deletingEnv).err = none ∧
      containsString (reconcile deletingPool deletingEnv).pool.finalizers
        nodePoolFinalizer = false) :=
  ⟨rfl, rfl, by
    have h := (handleDeletion_semantics deletingPool deletingEnv rfl rfl).2
      [{ id := 1, name := "a", status := "running" },
       { id := 2, name := "b", status := "running" }] rfl
    exact h.1 (fun i _ => rfl)⟩

end ControllerTheorems

end Nodepool
